import Mathlib

/-!
Shallow embedding of the `para` game-server repository: the movement rule and
match data model (`src/common/data_structures.hpp`, `src/common/types.hpp`),
the match state machine (`src/game/match.cpp`), the sharded game server
(`src/game/game_server.cpp`) and the single-threaded semantics of the
work-stealing deque (`src/scheduler/work_stealing_queue.hpp`).
-/

namespace Para

/-- `ActionType` from `src/common/types.hpp`. -/
inductive ActionType where
  | MOVE_LEFT
  | MOVE_RIGHT
  | MOVE_UP
  | MOVE_DOWN
deriving DecidableEq, Repr, Inhabited

/-- `ARENA_WIDTH` from `src/common/types.hpp`. -/
def ARENA_WIDTH : Int := 20

/-- `ARENA_HEIGHT` from `src/common/types.hpp`. -/
def ARENA_HEIGHT : Int := 20

/-- `ROLLBACK_INTERVAL` from `src/common/types.hpp`. -/
def ROLLBACK_INTERVAL : Int := 5

/-- `Input` from `src/common/data_structures.hpp`. -/
structure Input where
  matchId : Int
  playerId : Int
  tickId : Int
  type : ActionType
deriving DecidableEq, Repr, Inhabited

/-- `PlayerState` from `src/common/data_structures.hpp`. -/
structure PlayerState where
  id : Int
  x : Int
  y : Int
deriving DecidableEq, Repr, Inhabited

/-- `PlayerState::move` from `src/common/data_structures.hpp`: clamped movement. -/
def PlayerState.move (p : PlayerState) (action : ActionType) : PlayerState :=
  match action with
  | .MOVE_LEFT => { p with x := max 0 (p.x - 1) }
  | .MOVE_RIGHT => { p with x := min (ARENA_WIDTH - 1) (p.x + 1) }
  | .MOVE_UP => { p with y := max 0 (p.y - 1) }
  | .MOVE_DOWN => { p with y := min (ARENA_HEIGHT - 1) (p.y + 1) }

/-- `MatchState` from `src/common/data_structures.hpp` (`players[2]` unrolled). -/
structure MatchState where
  matchId : Int
  currentTick : Int
  player0 : PlayerState
  player1 : PlayerState
  isRunning : Bool
deriving DecidableEq, Repr, Inhabited

/-- `MatchState::MatchState(int id)` from `src/common/data_structures.hpp`. -/
def MatchState.init (id : Int) : MatchState :=
  { matchId := id,
    currentTick := 0,
    player0 := { id := 0, x := 5, y := 10 },
    player1 := { id := 1, x := 15, y := 10 },
    isRunning := false }

/-- `Snapshot` from `src/common/data_structures.hpp`. -/
structure Snapshot where
  tickId : Int
  state : MatchState
deriving DecidableEq, Repr, Inhabited

/-- The `Match` object from `src/game/match.hpp` (the mutex and the atomic are
concurrency artefacts with no sequential content). -/
structure Match where
  state : MatchState
  snapshots : List Snapshot
  inputHistory : List Input
  rollbackCount : Nat
  lastSnapshotTick : Int
deriving DecidableEq, Repr, Inhabited

/-- `Match::Match(int matchId)` from `src/game/match.cpp`. -/
def Match.init (id : Int) : Match :=
  { state := MatchState.init id,
    snapshots := [],
    inputHistory := [],
    rollbackCount := 0,
    lastSnapshotTick := -ROLLBACK_INTERVAL }

/-- `Match::applyInput` from `src/game/match.cpp`: route to `players[playerId % 2]`. -/
def applyInput (s : MatchState) (i : Input) : MatchState :=
  if i.playerId.emod 2 = 1 then { s with player1 := s.player1.move i.type }
  else { s with player0 := s.player0.move i.type }

/-- `Match::saveSnapshot` from `src/game/match.cpp`: append a snapshot of the
current state; when more than 10 snapshots are held, evict the eldest and prune
`inputHistory_` of entries with `tickId` strictly below the new eldest
snapshot's `tickId`. -/
def Match.saveSnapshot (m : Match) : Match :=
  let snaps := m.snapshots ++ [{ tickId := m.state.currentTick, state := m.state }]
  if 10 < snaps.length then
    match snaps.tail with
    | [] => { m with snapshots := [] }
    | s :: rest =>
      { m with snapshots := s :: rest,
               inputHistory := m.inputHistory.filter (fun i => decide (s.tickId ≤ i.tickId)) }
  else { m with snapshots := snaps }

/-- `Match::start` from `src/game/match.cpp`. -/
def Match.start (m : Match) : Match :=
  Match.saveSnapshot { m with state := { m.state with isRunning := true, currentTick := 0 } }

/-- The scan loop of `Match::findSnapshotForTick`: keep the last snapshot with
`tickId ≤ tick`, breaking at the first snapshot with `tickId > tick`. -/
def findBest (snaps : List Snapshot) (tick : Int) : Option Snapshot :=
  match snaps with
  | [] => none
  | s :: rest =>
    if s.tickId ≤ tick then
      match findBest rest tick with
      | some b => some b
      | none => some s
    else none

/-- `Match::findSnapshotForTick` from `src/game/match.cpp`: the loop result,
falling back to the front (eldest) snapshot when no snapshot has `tickId ≤ tick`. -/
def Match.findSnapshotForTick (snaps : List Snapshot) (tick : Int) : Option Snapshot :=
  match snaps with
  | [] => none
  | s0 :: _ =>
    match findBest snaps tick with
    | some b => some b
    | none => some s0

/-- The late-input re-application loop of `Match::processInput`: re-apply, in
history (arrival) order, every entry with `tickId ≥ lo`. -/
def Match.replayFrom (lo : Int) (hist : List Input) (st : MatchState) : MatchState :=
  hist.foldl (fun acc h => if lo ≤ h.tickId then applyInput acc h else acc) st

/-- The demonstrative-rollback re-application loop of `Match::processInput`:
re-apply every entry with `tickId ≥ lo` and `tickId ≤ state_.currentTick`,
where `state_.currentTick` is read from the state being rebuilt (the restore
has overwritten it with the snapshot's tick). -/
def Match.replayWindow (lo : Int) (hist : List Input) (st : MatchState) : MatchState :=
  hist.foldl
    (fun acc h => if lo ≤ h.tickId ∧ h.tickId ≤ acc.currentTick then applyInput acc h else acc)
    st

/-- The late-input branch of `Match::processInput` (`input.tickId < currentTick`):
increment the rollback counter, restore the state from
`findSnapshotForTick(input.tickId)` and re-apply history entries with
`tickId ≥ snapshot.tickId`. -/
def Match.lateBranch (m : Match) (i : Input) : Match :=
  let m1 := { m with rollbackCount := m.rollbackCount + 1 }
  match Match.findSnapshotForTick m1.snapshots i.tickId with
  | none => m1
  | some s => { m1 with state := Match.replayFrom s.tickId m1.inputHistory s.state }

/-- `Match::advanceTick` from `src/game/match.cpp`. -/
def Match.advanceTick (m : Match) : Match :=
  { m with state := { m.state with currentTick := m.state.currentTick + 1 } }

/-- The forced demonstrative rollback of `Match::processInput`: when the tick is
positive and the history is non-empty, restore from
`findSnapshotForTick(max 0 (currentTick - 2))` and re-apply the history window. -/
def Match.demoRollback (m : Match) : Match :=
  if 0 < m.state.currentTick ∧ m.inputHistory ≠ [] then
    let rollbackTick := max 0 (m.state.currentTick - 2)
    let m1 := { m with rollbackCount := m.rollbackCount + 1 }
    match Match.findSnapshotForTick m1.snapshots rollbackTick with
    | none => m1
    | some s => { m1 with state := Match.replayWindow s.tickId m1.inputHistory s.state }
  else m

/-- The snapshot-boundary block of `Match::processInput`: when
`currentTick - lastSnapshotTick ≥ ROLLBACK_INTERVAL`, save a snapshot, record
the snapshot tick, and run the demonstrative rollback. -/
def Match.boundaryPhase (m : Match) : Match :=
  if ROLLBACK_INTERVAL ≤ m.state.currentTick - m.lastSnapshotTick then
    let m1 := Match.saveSnapshot m
    let m2 := { m1 with lastSnapshotTick := m1.state.currentTick }
    Match.demoRollback m2
  else m

/-- `Match::processInput` from `src/game/match.cpp`. -/
def Match.processInput (m : Match) (i : Input) : Match :=
  if m.state.isRunning then
    let m1 := { m with inputHistory := m.inputHistory ++ [i] }
    let m2 :=
      if i.tickId < m1.state.currentTick then Match.lateBranch m1 i
      else { m1 with state := applyInput m1.state i }
    Match.boundaryPhase (Match.advanceTick m2)
  else m

/-- Process a list of inputs in order through `Match.processInput`. -/
def Match.run (m : Match) (l : List Input) : Match :=
  l.foldl Match.processInput m

/-- `n` MOVE_LEFT inputs for player 0 of match 0 at tick ids `0 .. n-1`. -/
def leftInputs (n : Nat) : List Input :=
  (List.range n).map (fun t => { matchId := 0, playerId := 0, tickId := (t : Int), type := .MOVE_LEFT })


/-- The demonstrative rollback as claim C2 words it: the replay window's upper
bound is the tick value reached by this `processInput` call, captured before
the restore (the source instead reads `state_.currentTick` after the restore). -/
def Match.demoRollbackClaim (m : Match) : Match :=
  if 0 < m.state.currentTick ∧ m.inputHistory ≠ [] then
    let rollbackTick := max 0 (m.state.currentTick - 2)
    let tickReached := m.state.currentTick
    let m1 := { m with rollbackCount := m.rollbackCount + 1 }
    match Match.findSnapshotForTick m1.snapshots rollbackTick with
    | none => m1
    | some s =>
      let st := m1.inputHistory.foldl
        (fun acc h => if s.tickId ≤ h.tickId ∧ h.tickId ≤ tickReached then applyInput acc h else acc)
        s.state
      { m1 with state := st }
  else m

/-- `Match.boundaryPhase` with the claim-C2 reading of the demonstrative rollback. -/
def Match.boundaryPhaseClaim (m : Match) : Match :=
  if ROLLBACK_INTERVAL ≤ m.state.currentTick - m.lastSnapshotTick then
    let m1 := Match.saveSnapshot m
    let m2 := { m1 with lastSnapshotTick := m1.state.currentTick }
    Match.demoRollbackClaim m2
  else m

/-- `Match.processInput` with the claim-C2 reading of the demonstrative rollback. -/
def Match.processInputClaim (m : Match) (i : Input) : Match :=
  if m.state.isRunning then
    let m1 := { m with inputHistory := m.inputHistory ++ [i] }
    let m2 :=
      if i.tickId < m1.state.currentTick then Match.lateBranch m1 i
      else { m1 with state := applyInput m1.state i }
    Match.boundaryPhaseClaim (Match.advanceTick m2)
  else m

/-- Process a list of inputs in order through `Match.processInputClaim`. -/
def Match.runClaim (m : Match) (l : List Input) : Match :=
  l.foldl Match.processInputClaim m

/-- The demonstrative-rollback replay with its window bounds spelled out as
constants: entries with `tickId` in `[s.tickId, s.state.currentTick]`, where
`s.state.currentTick` is the restored state's tick. -/
def Match.demoReplayRestored (s : Snapshot) (hist : List Input) : MatchState :=
  hist.foldl
    (fun acc h => if s.tickId ≤ h.tickId ∧ h.tickId ≤ s.state.currentTick then applyInput acc h else acc)
    s.state

/-- Claim C3's words for snapshot lookup: the newest (latest) snapshot with
`tickId ≤ t`, falling back to the eldest snapshot. -/
def newestSnapshotLE (snaps : List Snapshot) (t : Int) : Option Snapshot :=
  match (snaps.filter (fun s => decide (s.tickId ≤ t))).getLast? with
  | some b => some b
  | none => snaps.head?

/-- The `GameServer` from `src/game/game_server.cpp`: per-match FIFO queues
(`std::queue` modelled as a list, front at the head), the matches, and the
processed-input counter. -/
structure GameServer where
  matches_ : List Match
  queues : List (List Input)
  processedCount : Nat
  numMatches : Int
deriving DecidableEq, Repr, Inhabited

/-- `GameServer::GameServer(int numMatches)` from `src/game/game_server.cpp`. -/
def GameServer.init (n : Int) : GameServer :=
  { matches_ := (List.range n.toNat).map (fun k => Match.init (k : Int)),
    queues := List.replicate n.toNat [],
    processedCount := 0,
    numMatches := n }

/-- `GameServer::start` from `src/game/game_server.cpp`. -/
def GameServer.startAll (g : GameServer) : GameServer :=
  { g with matches_ := g.matches_.map Match.start }

/-- `GameServer::receiveInput` from `src/game/game_server.cpp`: push onto the
per-match queue when `0 <= matchId < numMatches`, otherwise do nothing. -/
def GameServer.receiveInput (g : GameServer) (i : Input) : GameServer :=
  if 0 ≤ i.matchId ∧ i.matchId < g.numMatches then
    { g with queues := g.queues.set i.matchId.toNat (g.queues.getD i.matchId.toNat [] ++ [i]) }
  else g

/-- `GameServer::processPending` from `src/game/game_server.cpp`: bounds-check,
swap the per-match queue out, then drain it into the match in FIFO order,
counting each processed input. -/
def GameServer.processPending (g : GameServer) (matchId : Int) : GameServer :=
  if matchId < 0 ∨ g.numMatches ≤ matchId then g
  else
    let q := g.queues.getD matchId.toNat []
    if q = [] then g
    else
      { g with
        queues := g.queues.set matchId.toNat [],
        matches_ := g.matches_.set matchId.toNat
          (q.foldl Match.processInput (g.matches_.getD matchId.toNat (Match.init 0))),
        processedCount := g.processedCount + q.length }

/-- `WorkStealingQueue::pushBack` from `src/scheduler/work_stealing_queue.hpp`
(single-threaded semantics; the deque's front is the list head). -/
def WorkStealingQueue.pushBack {T : Type} (q : List T) (item : T) : List T :=
  q ++ [item]

/-- `WorkStealingQueue::tryPopBack` from `src/scheduler/work_stealing_queue.hpp`:
remove and return the back element, `none` when empty. -/
def WorkStealingQueue.tryPopBack {T : Type} (q : List T) : Option T × List T :=
  match q.getLast? with
  | none => (none, q)
  | some item => (some item, q.dropLast)

/-- `WorkStealingQueue::tryPopFront` from `src/scheduler/work_stealing_queue.hpp`:
remove and return the front element, `none` when empty. -/
def WorkStealingQueue.tryPopFront {T : Type} (q : List T) : Option T × List T :=
  match q with
  | [] => (none, [])
  | item :: rest => (some item, rest)


/-- Player positions lie inside the 20 x 20 arena. -/
def inBounds (p : PlayerState) : Prop :=
  0 ≤ p.x ∧ p.x < ARENA_WIDTH ∧ 0 ≤ p.y ∧ p.y < ARENA_HEIGHT

/-- Both players in bounds and a non-negative tick. -/
def stateOK (s : MatchState) : Prop :=
  inBounds s.player0 ∧ inBounds s.player1 ∧ 0 ≤ s.currentTick

/-- Per-snapshot invariant, relative to the match's `lastSnapshotTick`. -/
def snapOK (lastTick : Int) (s : Snapshot) : Prop :=
  stateOK s.state ∧ s.tickId ≤ max lastTick 0

/-- Invariant of a `Match` maintained by construction, `start` and `processInput`. -/
def Match.Inv (m : Match) : Prop :=
  stateOK m.state
  ∧ (∀ s ∈ m.snapshots, snapOK m.lastSnapshotTick s)
  ∧ m.snapshots.Pairwise (fun a b => a.tickId ≤ b.tickId)
  ∧ m.snapshots.length ≤ 10

/-- The observable moments of a match's lifecycle: after construction, after
`start`, and after each `processInput` call. -/
inductive Match.Reachable : Match → Prop where
  | base (id : Int) : Match.Reachable (Match.init id)
  | started (id : Int) : Match.Reachable (Match.start (Match.init id))
  | step {m : Match} (i : Input) : Match.Reachable m → Match.Reachable (Match.processInput m i)

/-- The spec's late-input scenario: `(tick 0, DOWN)`, `(tick 1, DOWN)`, `(tick 0, RIGHT)`. -/
def lateScenario : List Input :=
  [ { matchId := 0, playerId := 0, tickId := 0, type := .MOVE_DOWN }
  , { matchId := 0, playerId := 0, tickId := 1, type := .MOVE_DOWN }
  , { matchId := 0, playerId := 0, tickId := 0, type := .MOVE_RIGHT } ]


/-- A match holding 10 snapshots, about to evict and prune on the next save. -/
def c7WitnessMatch : Match :=
  { state := { matchId := 0, currentTick := 10, player0 := ⟨0, 5, 10⟩,
               player1 := ⟨1, 15, 10⟩, isRunning := true },
    snapshots := (List.range 10).map (fun k => ⟨(k : Int), MatchState.init 0⟩),
    inputHistory := [ { matchId := 0, playerId := 0, tickId := 0, type := .MOVE_LEFT }
                    , { matchId := 0, playerId := 0, tickId := 5, type := .MOVE_LEFT } ],
    rollbackCount := 0,
    lastSnapshotTick := 5 }

/-- A two-match server used to exercise input routing. -/
def c8Server : GameServer := GameServer.init 2

/-- An in-range input for `c8Server`. -/
def c8Input : Input := { matchId := 1, playerId := 0, tickId := 0, type := .MOVE_UP }

/-- A two-match server with two inputs queued for match 0. -/
def c10Server : GameServer :=
  GameServer.receiveInput
    (GameServer.receiveInput ((GameServer.init 2).startAll)
      { matchId := 0, playerId := 0, tickId := 0, type := .MOVE_LEFT })
    { matchId := 0, playerId := 1, tickId := 0, type := .MOVE_UP }

/-- Concrete match used to exercise the demonstrative rollback directly. -/
def c2WitnessMatch : Match :=
  { state := { matchId := 0, currentTick := 3, player0 := ⟨0, 5, 10⟩,
               player1 := ⟨1, 15, 10⟩, isRunning := true },
    snapshots := [⟨1, { matchId := 0, currentTick := 1, player0 := ⟨0, 4, 10⟩,
                        player1 := ⟨1, 15, 10⟩, isRunning := true }⟩],
    inputHistory := [{ matchId := 0, playerId := 0, tickId := 1, type := .MOVE_LEFT }],
    rollbackCount := 0,
    lastSnapshotTick := 3 }

/-- The snapshot `c2WitnessMatch`'s demonstrative rollback locates. -/
def c2WitnessSnap : Snapshot :=
  ⟨1, { matchId := 0, currentTick := 1, player0 := ⟨0, 4, 10⟩,
        player1 := ⟨1, 15, 10⟩, isRunning := true }⟩

/-- The match state after the first two inputs of the late-input scenario. -/
def c3m2 : Match := Match.run (Match.start (Match.init 0)) (lateScenario.take 2)

/-- The late third input of the late-input scenario. -/
def c3i : Input := { matchId := 0, playerId := 0, tickId := 0, type := .MOVE_RIGHT }

/-- The snapshot the late input of the scenario rolls back to. -/
def c3WitnessSnap : Snapshot :=
  ⟨0, { matchId := 0, currentTick := 0, player0 := ⟨0, 5, 10⟩,
        player1 := ⟨1, 15, 10⟩, isRunning := true }⟩

end Para

namespace Para

theorem applyInput_currentTick (s : MatchState) (i : Input) :
    (applyInput s i).currentTick = s.currentTick := by
  unfold applyInput; split <;> rfl

theorem applyInput_isRunning (s : MatchState) (i : Input) :
    (applyInput s i).isRunning = s.isRunning := by
  unfold applyInput; split <;> rfl

theorem PlayerState.move_inBounds (p : PlayerState) (a : ActionType) (h : inBounds p) :
    inBounds (p.move a) := by
  cases a <;>
    simp only [PlayerState.move, inBounds, ARENA_WIDTH, ARENA_HEIGHT] at h ⊢ <;> omega

theorem applyInput_stateOK (s : MatchState) (i : Input) (h : stateOK s) :
    stateOK (applyInput s i) := by
  unfold applyInput
  obtain ⟨h0, h1, ht⟩ := h
  split
  · exact ⟨h0, PlayerState.move_inBounds _ _ h1, ht⟩
  · exact ⟨PlayerState.move_inBounds _ _ h0, h1, ht⟩

theorem foldl_preserve {α β : Type} {f : β → α → β} {P : β → Prop}
    (hf : ∀ b a, P b → P (f b a)) :
    ∀ (l : List α) (b : β), P b → P (l.foldl f b) := by
  intro l
  induction l with
  | nil => intro b hb; exact hb
  | cons a t ih => intro b hb; exact ih _ (hf _ _ hb)

theorem replayFrom_stateOK (lo : Int) (hist : List Input) (st : MatchState)
    (h : stateOK st) : stateOK (Match.replayFrom lo hist st) := by
  unfold Match.replayFrom
  refine foldl_preserve ?_ hist st h
  intro b a hb
  by_cases hc : lo ≤ a.tickId
  · rw [if_pos hc]; exact applyInput_stateOK _ _ hb
  · rw [if_neg hc]; exact hb

theorem replayWindow_stateOK (lo : Int) (hist : List Input) (st : MatchState)
    (h : stateOK st) : stateOK (Match.replayWindow lo hist st) := by
  unfold Match.replayWindow
  refine foldl_preserve ?_ hist st h
  intro b a hb
  by_cases hc : lo ≤ a.tickId ∧ a.tickId ≤ b.currentTick
  · rw [if_pos hc]; exact applyInput_stateOK _ _ hb
  · rw [if_neg hc]; exact hb

theorem replayWindow_eq (lo : Int) (hist : List Input) (st : MatchState) :
    Match.replayWindow lo hist st =
      hist.foldl
        (fun acc h => if lo ≤ h.tickId ∧ h.tickId ≤ st.currentTick then applyInput acc h else acc)
        st := by
  unfold Match.replayWindow
  induction hist generalizing st with
  | nil => rfl
  | cons a t ih =>
    simp only [List.foldl_cons]
    by_cases hc : lo ≤ a.tickId ∧ a.tickId ≤ st.currentTick
    · rw [if_pos hc]
      have h2 := ih (applyInput st a)
      simp only [applyInput_currentTick] at h2
      exact h2
    · rw [if_neg hc]
      exact ih st

theorem findBest_mem {tick : Int} :
    ∀ {snaps : List Snapshot} {s : Snapshot}, findBest snaps tick = some s → s ∈ snaps := by
  intro snaps
  induction snaps with
  | nil => intro s h; exact absurd h (by simp [findBest])
  | cons a rest ih =>
    intro s h
    unfold findBest at h
    by_cases hc : a.tickId ≤ tick
    · rw [if_pos hc] at h
      cases hfb : findBest rest tick with
      | none => rw [hfb] at h; injection h with h'; exact h' ▸ List.mem_cons_self a rest
      | some b =>
        rw [hfb] at h; injection h with h'
        exact h' ▸ List.mem_cons_of_mem a (ih hfb)
    · rw [if_neg hc] at h; cases h

theorem findSnapshotForTick_mem {snaps : List Snapshot} {tick : Int} {s : Snapshot}
    (h : Match.findSnapshotForTick snaps tick = some s) : s ∈ snaps := by
  unfold Match.findSnapshotForTick at h
  cases snaps with
  | nil => cases h
  | cons s0 rest =>
    cases hfb : findBest (s0 :: rest) tick with
    | none => rw [hfb] at h; injection h with h'; exact h' ▸ List.mem_cons_self s0 rest
    | some b => rw [hfb] at h; injection h with h'; exact h' ▸ findBest_mem hfb

theorem getD_set_self {α : Type} :
    ∀ (l : List α) (n : Nat) (a d : α), n < l.length → (l.set n a).getD n d = a := by
  intro l
  induction l with
  | nil => intro n a d h; exact absurd h (by simp)
  | cons x t ih =>
    intro n a d h
    cases n with
    | zero => rfl
    | succ k => exact ih k a d (Nat.lt_of_succ_lt_succ h)

theorem getD_set_ne {α : Type} :
    ∀ (l : List α) (n j : Nat) (a d : α), n ≠ j → (l.set n a).getD j d = l.getD j d := by
  intro l
  induction l with
  | nil => intro n j a d _; rfl
  | cons x t ih =>
    intro n j a d h
    cases n with
    | zero =>
      cases j with
      | zero => exact absurd rfl h
      | succ k => rfl
    | succ nk =>
      cases j with
      | zero => rfl
      | succ k => exact ih nk k a d (fun he => h (by rw [he]))

theorem saveSnapshot_state (m : Match) : (Match.saveSnapshot m).state = m.state := by
  unfold Match.saveSnapshot
  dsimp only
  split
  · split <;> rfl
  · rfl

theorem saveSnapshot_lastSnapshotTick (m : Match) :
    (Match.saveSnapshot m).lastSnapshotTick = m.lastSnapshotTick := by
  unfold Match.saveSnapshot
  dsimp only
  split
  · split <;> rfl
  · rfl

theorem saveSnapshot_snapshots (m : Match) :
    (Match.saveSnapshot m).snapshots =
      if 10 < (m.snapshots ++ [({ tickId := m.state.currentTick, state := m.state } : Snapshot)]).length then
        (m.snapshots ++ [({ tickId := m.state.currentTick, state := m.state } : Snapshot)]).tail
      else m.snapshots ++ [({ tickId := m.state.currentTick, state := m.state } : Snapshot)] := by
  unfold Match.saveSnapshot
  dsimp only
  split
  case isTrue h =>
    cases htl : (m.snapshots ++ [({ tickId := m.state.currentTick, state := m.state } : Snapshot)]).tail with
    | nil => rfl
    | cons s rest => rfl
  case isFalse h =>
    rfl

theorem boundaryPhase_of_lt (m : Match)
    (h : ¬ ROLLBACK_INTERVAL ≤ m.state.currentTick - m.lastSnapshotTick) :
    Match.boundaryPhase m = m := by
  unfold Match.boundaryPhase
  rw [if_neg h]

theorem processInput_not_running (m : Match) (i : Input) (h : m.state.isRunning = false) :
    Match.processInput m i = m := by
  unfold Match.processInput
  rw [h]
  rfl

theorem processInput_normal (m : Match) (i : Input) (hrun : m.state.isRunning = true)
    (hnl : ¬ i.tickId < m.state.currentTick) :
    Match.processInput m i =
      Match.boundaryPhase (Match.advanceTick
        { m with inputHistory := m.inputHistory ++ [i], state := applyInput m.state i }) := by
  unfold Match.processInput
  rw [hrun]
  dsimp only
  rw [if_neg hnl]
  exact if_pos rfl

theorem processInput_late (m : Match) (i : Input) (hrun : m.state.isRunning = true)
    (hl : i.tickId < m.state.currentTick) :
    Match.processInput m i =
      Match.boundaryPhase (Match.advanceTick
        (Match.lateBranch { m with inputHistory := m.inputHistory ++ [i] } i)) := by
  unfold Match.processInput
  rw [hrun]
  dsimp only
  rw [if_pos hl]
  exact if_pos rfl


theorem inv_init (id : Int) : Match.Inv (Match.init id) := by
  unfold Match.Inv Match.init MatchState.init snapOK stateOK inBounds ARENA_WIDTH ARENA_HEIGHT
  refine ⟨⟨?_, ?_, ?_⟩, ?_, ?_, ?_⟩ <;> simp

theorem inv_start_init (id : Int) : Match.Inv (Match.start (Match.init id)) := by
  have hrw : Match.start (Match.init id) =
      { state := { matchId := id, currentTick := 0, player0 := ⟨0, 5, 10⟩,
                   player1 := ⟨1, 15, 10⟩, isRunning := true },
        snapshots := [⟨0, { matchId := id, currentTick := 0, player0 := ⟨0, 5, 10⟩,
                            player1 := ⟨1, 15, 10⟩, isRunning := true }⟩],
        inputHistory := [], rollbackCount := 0, lastSnapshotTick := -5 } := by
    norm_num [Match.start, Match.saveSnapshot, Match.init, MatchState.init, ROLLBACK_INTERVAL]
  rw [hrw]
  unfold Match.Inv snapOK stateOK inBounds ARENA_WIDTH ARENA_HEIGHT
  norm_num

theorem inv_advanceTick {m : Match} (h : Match.Inv m) : Match.Inv (Match.advanceTick m) := by
  obtain ⟨⟨h0, h1, ht⟩, hs, hp, hl⟩ := h
  refine ⟨⟨h0, h1, ?_⟩, hs, hp, hl⟩
  show 0 ≤ m.state.currentTick + 1
  omega

theorem inv_lateBranch {m : Match} (i : Input) (h : Match.Inv m) :
    Match.Inv (Match.lateBranch m i) := by
  obtain ⟨hst, hs, hp, hl⟩ := h
  unfold Match.lateBranch
  dsimp only
  cases hfind : Match.findSnapshotForTick m.snapshots i.tickId with
  | none => exact ⟨hst, hs, hp, hl⟩
  | some s =>
    have hmem := findSnapshotForTick_mem hfind
    exact ⟨replayFrom_stateOK _ _ _ ((hs s hmem).1), hs, hp, hl⟩

theorem inv_demoRollback {m : Match} (h : Match.Inv m) : Match.Inv (Match.demoRollback m) := by
  obtain ⟨hst, hs, hp, hl⟩ := h
  unfold Match.demoRollback
  by_cases hg : 0 < m.state.currentTick ∧ m.inputHistory ≠ []
  · rw [if_pos hg]
    dsimp only
    cases hfind : Match.findSnapshotForTick m.snapshots (max 0 (m.state.currentTick - 2)) with
    | none => exact ⟨hst, hs, hp, hl⟩
    | some s =>
      have hmem := findSnapshotForTick_mem hfind
      exact ⟨replayWindow_stateOK _ _ _ ((hs s hmem).1), hs, hp, hl⟩
  · rw [if_neg hg]
    exact ⟨hst, hs, hp, hl⟩

theorem inv_boundaryPhase {m : Match} (h : Match.Inv m) : Match.Inv (Match.boundaryPhase m) := by
  obtain ⟨hst, hs, hp, hl⟩ := h
  unfold Match.boundaryPhase
  by_cases hb : ROLLBACK_INTERVAL ≤ m.state.currentTick - m.lastSnapshotTick
  · rw [if_pos hb]
    dsimp only
    apply inv_demoRollback
    have hT : 0 ≤ m.state.currentTick := hst.2.2
    have hLT : max m.lastSnapshotTick 0 ≤ m.state.currentTick := by
      refine max_le ?_ hT
      unfold ROLLBACK_INTERVAL at hb
      omega
    refine ⟨?_, ?_, ?_, ?_⟩
    · show stateOK (Match.saveSnapshot m).state
      rw [saveSnapshot_state]
      exact hst
    · show ∀ s ∈ (Match.saveSnapshot m).snapshots, snapOK (Match.saveSnapshot m).state.currentTick s
      rw [saveSnapshot_state, saveSnapshot_snapshots]
      intro s hmem
      have hmem' : s ∈ m.snapshots ++ [({ tickId := m.state.currentTick, state := m.state } : Snapshot)] := by
        by_cases hlen :
            10 < (m.snapshots ++ [({ tickId := m.state.currentTick, state := m.state } : Snapshot)]).length
        · rw [if_pos hlen] at hmem
          exact (List.tail_sublist _).subset hmem
        · rw [if_neg hlen] at hmem
          exact hmem
      rcases List.mem_append.1 hmem' with hold | hnew
      · obtain ⟨hsOK, hsLe⟩ := hs s hold
        exact ⟨hsOK, le_trans hsLe (le_trans hLT (le_max_left _ _))⟩
      · rw [List.mem_singleton] at hnew
        subst hnew
        exact ⟨hst, le_max_left _ _⟩
    · show ((Match.saveSnapshot m).snapshots).Pairwise (fun a b => a.tickId ≤ b.tickId)
      rw [saveSnapshot_snapshots]
      have hpa : (m.snapshots ++ [({ tickId := m.state.currentTick, state := m.state } : Snapshot)]).Pairwise
          (fun a b => a.tickId ≤ b.tickId) := by
        rw [List.pairwise_append]
        refine ⟨hp, List.pairwise_singleton _ _, ?_⟩
        intro x hx y hy
        rw [List.mem_singleton] at hy
        subst hy
        exact le_trans (hs x hx).2 hLT
      split
      · exact hpa.sublist (List.tail_sublist _)
      · exact hpa
    · show ((Match.saveSnapshot m).snapshots).length ≤ 10
      rw [saveSnapshot_snapshots]
      split <;> rename_i hlen <;>
        simp only [List.length_tail, List.length_append, List.length_singleton] at hlen ⊢ <;>
        omega
  · rw [if_neg hb]
    exact ⟨hst, hs, hp, hl⟩

theorem inv_processInput {m : Match} (i : Input) (h : Match.Inv m) :
    Match.Inv (Match.processInput m i) := by
  by_cases hrun : m.state.isRunning = true
  · by_cases hl : i.tickId < m.state.currentTick
    · rw [processInput_late m i hrun hl]
      exact inv_boundaryPhase (inv_advanceTick (inv_lateBranch i h))
    · rw [processInput_normal m i hrun hl]
      refine inv_boundaryPhase (inv_advanceTick ?_)
      exact ⟨applyInput_stateOK _ _ h.1, h.2.1, h.2.2.1, h.2.2.2⟩
  · rw [processInput_not_running m i (by revert hrun; cases m.state.isRunning <;> simp)]
    exact h

theorem reachable_inv {m : Match} (h : Match.Reachable m) : Match.Inv m := by
  induction h with
  | base id => exact inv_init id
  | started id => exact inv_start_init id
  | step i _ ih => exact inv_processInput i ih


theorem findBest_eq_getLast {tick : Int} :
    ∀ {snaps : List Snapshot},
      snaps.Pairwise (fun a b => a.tickId ≤ b.tickId) →
      findBest snaps tick = (snaps.filter (fun s => decide (s.tickId ≤ tick))).getLast? := by
  intro snaps
  induction snaps with
  | nil => intro _; rfl
  | cons a rest ih =>
    intro hp
    rw [List.pairwise_cons] at hp
    obtain ⟨hall, hrest⟩ := hp
    unfold findBest
    by_cases hc : a.tickId ≤ tick
    · rw [if_pos hc, ih hrest]
      have hfc : List.filter (fun s => decide (s.tickId ≤ tick)) (a :: rest)
          = a :: List.filter (fun s => decide (s.tickId ≤ tick)) rest := by
        simp [hc]
      rw [hfc]
      cases hfr : rest.filter (fun s => decide (s.tickId ≤ tick)) with
      | nil => rfl
      | cons b L =>
        rw [List.getLast?_cons_cons]
        cases hg : (b :: L).getLast? with
        | none => simp at hg
        | some x => rfl
    · rw [if_neg hc]
      have hfilter : (a :: rest).filter (fun s => decide (s.tickId ≤ tick)) = [] := by
        rw [List.filter_eq_nil_iff]
        intro x hx
        simp only [decide_eq_true_eq]
        rcases List.mem_cons.1 hx with hxa | hxr
        · rw [hxa]; exact hc
        · intro hxt
          exact hc (le_trans (hall x hxr) hxt)
      rw [hfilter]
      rfl

theorem findSnapshotForTick_eq_newest {snaps : List Snapshot} {tick : Int}
    (hp : snaps.Pairwise (fun a b => a.tickId ≤ b.tickId)) :
    Match.findSnapshotForTick snaps tick = newestSnapshotLE snaps tick := by
  unfold Match.findSnapshotForTick newestSnapshotLE
  cases snaps with
  | nil => rfl
  | cons s0 rest =>
    rw [findBest_eq_getLast hp]
    cases hg : ((s0 :: rest).filter (fun s => decide (s.tickId ≤ tick))).getLast? <;> rfl

/-- C1 (counterexample): `current_tick` is NOT monotonically non-decreasing across
`process_input` calls: on a fresh started match fed MOVE_LEFT inputs at ticks
0,1,...,6, the `current_tick` observable after the 7th call is strictly below the
one observable after the 6th call (the demonstrative rollback at the snapshot
boundary restores `current_tick` from an older snapshot). -/
theorem c1_counterexample :
    (Match.run (Match.start (Match.init 0)) (leftInputs 7)).state.currentTick
      < (Match.run (Match.start (Match.init 0)) (leftInputs 6)).state.currentTick := by
  decide

/-- C1 (amended): across `process_input` calls on a running match that take the
normal branch and do not reach the snapshot boundary, `current_tick` is
non-decreasing — it advances by exactly one; a call that reaches the snapshot
boundary (or the late-input branch) may restore `current_tick` from an older
snapshot and thereby decrease it. -/
theorem c1_tick_nondecreasing_without_restore (m : Match) (i : Input)
    (hrun : m.state.isRunning = true)
    (hnl : ¬ i.tickId < m.state.currentTick)
    (hb : ¬ ROLLBACK_INTERVAL ≤ m.state.currentTick + 1 - m.lastSnapshotTick) :
    m.state.currentTick ≤ (Match.processInput m i).state.currentTick
    ∧ (Match.processInput m i).state.currentTick = m.state.currentTick + 1 := by
  rw [processInput_normal m i hrun hnl]
  rw [boundaryPhase_of_lt]
  · constructor
    · show m.state.currentTick ≤ (applyInput m.state i).currentTick + 1
      rw [applyInput_currentTick]
      omega
    · show (applyInput m.state i).currentTick + 1 = m.state.currentTick + 1
      rw [applyInput_currentTick]
  · show ¬ ROLLBACK_INTERVAL ≤ (applyInput m.state i).currentTick + 1 - m.lastSnapshotTick
    rw [applyInput_currentTick]
    exact hb

theorem c1_tick_nondecreasing_without_restore_witness :
    (Match.run (Match.start (Match.init 0)) (leftInputs 1)).state.isRunning = true
    ∧ ¬ (5:Int) < (Match.run (Match.start (Match.init 0)) (leftInputs 1)).state.currentTick
    ∧ ¬ ROLLBACK_INTERVAL ≤
        (Match.run (Match.start (Match.init 0)) (leftInputs 1)).state.currentTick + 1
          - (Match.run (Match.start (Match.init 0)) (leftInputs 1)).lastSnapshotTick
    ∧ ((Match.run (Match.start (Match.init 0)) (leftInputs 1)).state.currentTick
        ≤ (Match.processInput (Match.run (Match.start (Match.init 0)) (leftInputs 1))
            { matchId := 0, playerId := 0, tickId := 5, type := .MOVE_LEFT }).state.currentTick
       ∧ (Match.processInput (Match.run (Match.start (Match.init 0)) (leftInputs 1))
            { matchId := 0, playerId := 0, tickId := 5, type := .MOVE_LEFT }).state.currentTick
          = (Match.run (Match.start (Match.init 0)) (leftInputs 1)).state.currentTick + 1) :=
  ⟨by decide, by decide, by decide,
   c1_tick_nondecreasing_without_restore _ _ (by decide) (by decide) (by decide)⟩

/-- C2 (counterexample): the demonstrative rollback does NOT re-apply the
history entries with `tick_id` in `[s.tick_id, current_tick]` for `current_tick`
the tick reached by this call: on 7 MOVE_LEFT inputs at ticks 0..6, the code
leaves player 0 at x = 3, while re-applying the claimed window would leave
x = 0; the resulting match states differ. -/
theorem c2_counterexample :
    (Match.run (Match.start (Match.init 0)) (leftInputs 7)).state.player0.x = 3
    ∧ (Match.runClaim (Match.start (Match.init 0)) (leftInputs 7)).state.player0.x = 0
    ∧ (Match.run (Match.start (Match.init 0)) (leftInputs 7)).state
        ≠ (Match.runClaim (Match.start (Match.init 0)) (leftInputs 7)).state := by
  decide

/-- C2 (amended): at a snapshot boundary with a positive tick and non-empty
history, the demonstrative rollback picks `target = max(0, current_tick - 2)`,
increments `rollback_count` by one, restores from the located snapshot `s`, and
re-applies exactly the history entries with `tick_id` in
`[s.tick_id, s.state.current_tick]` — the upper bound is the restored state's
tick, because the restore overwrites `current_tick` before the filter reads it.
The second conjunct records that the snapshot boundary inside `process_input`
executes exactly this block after saving the snapshot. -/
theorem c2_demo_rollback_window (m : Match) (s : Snapshot)
    (h1 : 0 < m.state.currentTick) (h2 : m.inputHistory ≠ [])
    (h3 : Match.findSnapshotForTick m.snapshots (max 0 (m.state.currentTick - 2)) = some s) :
    Match.demoRollback m =
      { m with rollbackCount := m.rollbackCount + 1,
               state := Match.demoReplayRestored s m.inputHistory }
    ∧ (∀ m' : Match, ROLLBACK_INTERVAL ≤ m'.state.currentTick - m'.lastSnapshotTick →
        Match.boundaryPhase m' =
          Match.demoRollback
            { Match.saveSnapshot m' with
                lastSnapshotTick := (Match.saveSnapshot m').state.currentTick }) := by
  constructor
  · unfold Match.demoRollback
    rw [if_pos ⟨h1, h2⟩]
    dsimp only
    rw [h3]
    dsimp only
    rw [replayWindow_eq]
    rfl
  · intro m' hb
    unfold Match.boundaryPhase
    rw [if_pos hb]

theorem c2_demo_rollback_window_witness :
    (0:Int) < c2WitnessMatch.state.currentTick
    ∧ c2WitnessMatch.inputHistory ≠ []
    ∧ Match.findSnapshotForTick c2WitnessMatch.snapshots
        (max 0 (c2WitnessMatch.state.currentTick - 2)) = some c2WitnessSnap
    ∧ (Match.demoRollback c2WitnessMatch =
        { c2WitnessMatch with
            rollbackCount := c2WitnessMatch.rollbackCount + 1,
            state := Match.demoReplayRestored c2WitnessSnap c2WitnessMatch.inputHistory }
       ∧ (∀ m' : Match, ROLLBACK_INTERVAL ≤ m'.state.currentTick - m'.lastSnapshotTick →
           Match.boundaryPhase m' =
             Match.demoRollback
               { Match.saveSnapshot m' with
                   lastSnapshotTick := (Match.saveSnapshot m').state.currentTick })) :=
  ⟨by decide, by decide, by decide,
   c2_demo_rollback_window c2WitnessMatch c2WitnessSnap (by decide) (by decide) (by decide)⟩

/-- C3: on a running match whose snapshots are tick-sorted, a late input
(`tick_id < current_tick`) makes `process_input` increment `rollback_count`,
restore from the newest snapshot `s` with `s.tick_id ≤ input.tick_id` (fallback:
the eldest), and re-apply every history entry (the new input included) with
`tick_id ≥ s.tick_id` in arrival order, before the tick advance and the
snapshot-boundary block; in particular, the DOWN, DOWN, late-RIGHT scenario ends
with `rollback_count ≥ 1` and player 0 at the clamped result of RIGHT, DOWN,
DOWN from (5,10). -/
theorem c3_late_input_rollback :
    (∀ (m : Match) (i : Input) (s : Snapshot),
        m.state.isRunning = true →
        m.snapshots.Pairwise (fun a b => a.tickId ≤ b.tickId) →
        i.tickId < m.state.currentTick →
        newestSnapshotLE m.snapshots i.tickId = some s →
        Match.processInput m i =
          Match.boundaryPhase (Match.advanceTick
            { m with inputHistory := m.inputHistory ++ [i],
                     rollbackCount := m.rollbackCount + 1,
                     state := Match.replayFrom s.tickId (m.inputHistory ++ [i]) s.state }))
    ∧ ((Match.run (Match.start (Match.init 0)) lateScenario).rollbackCount ≥ 1
       ∧ (Match.run (Match.start (Match.init 0)) lateScenario).state.player0.x =
           ((((⟨0, 5, 10⟩ : PlayerState).move .MOVE_RIGHT).move .MOVE_DOWN).move .MOVE_DOWN).x
       ∧ (Match.run (Match.start (Match.init 0)) lateScenario).state.player0.y =
           ((((⟨0, 5, 10⟩ : PlayerState).move .MOVE_RIGHT).move .MOVE_DOWN).move .MOVE_DOWN).y) := by
  constructor
  · intro m i s hrun hp hl hfind
    rw [processInput_late m i hrun hl]
    have hlb : Match.lateBranch { m with inputHistory := m.inputHistory ++ [i] } i =
        { m with inputHistory := m.inputHistory ++ [i],
                 rollbackCount := m.rollbackCount + 1,
                 state := Match.replayFrom s.tickId (m.inputHistory ++ [i]) s.state } := by
      unfold Match.lateBranch
      dsimp only
      rw [findSnapshotForTick_eq_newest hp, hfind]
    rw [hlb]
  · decide

theorem c3_late_input_rollback_witness :
    c3m2.state.isRunning = true
    ∧ c3m2.snapshots.Pairwise (fun a b => a.tickId ≤ b.tickId)
    ∧ c3i.tickId < c3m2.state.currentTick
    ∧ newestSnapshotLE c3m2.snapshots c3i.tickId = some c3WitnessSnap
    ∧ Match.processInput c3m2 c3i =
        Match.boundaryPhase (Match.advanceTick
          { c3m2 with inputHistory := c3m2.inputHistory ++ [c3i],
                      rollbackCount := c3m2.rollbackCount + 1,
                      state := Match.replayFrom c3WitnessSnap.tickId
                        (c3m2.inputHistory ++ [c3i]) c3WitnessSnap.state }) :=
  ⟨by decide, by decide, by decide, by decide,
   c3_late_input_rollback.1 c3m2 c3i c3WitnessSnap (by decide) (by decide) (by decide) (by decide)⟩

set_option maxRecDepth 100000 in
/-- C4 (counterexample): on a fresh started match, 100 MOVE_LEFT inputs for
player 0 at ticks 0..99 do NOT produce `rollback_count = 20`. -/
theorem c4_counterexample :
    (Match.run (Match.start (Match.init 0)) (leftInputs 100)).rollbackCount ≠ 20 := by
  decide

set_option maxRecDepth 100000 in
/-- C4 (amended): on a fresh started match, 100 MOVE_LEFT inputs for player 0 at
ticks 0..99 leave player 0 at (0, 10) and `rollback_count` at exactly 11 (the
demonstrative rollback restores `current_tick` from an older snapshot, so
snapshot boundaries recur every 10 calls after the second one, not every 5). -/
theorem c4_left_inputs :
    (Match.run (Match.start (Match.init 0)) (leftInputs 100)).state.player0.x = 0
    ∧ (Match.run (Match.start (Match.init 0)) (leftInputs 100)).state.player0.y = 10
    ∧ (Match.run (Match.start (Match.init 0)) (leftInputs 100)).rollbackCount = 11 := by
  decide

/-- C9: in single-threaded use the work-stealing queue is a double-ended queue:
`try_pop_back` after `push_back` returns the just-pushed item (LIFO) leaving the
rest, `try_pop_front` returns the oldest remaining item (the head), and both pop
operations return `none` on an empty queue instead of signalling an error. -/
theorem c9_deque {T : Type} (q : List T) (x : T) :
    WorkStealingQueue.tryPopBack (WorkStealingQueue.pushBack q x) = (some x, q)
    ∧ (∀ (a : T) (t : List T), q = a :: t → WorkStealingQueue.tryPopFront q = (some a, t))
    ∧ WorkStealingQueue.tryPopBack ([] : List T) = (none, [])
    ∧ WorkStealingQueue.tryPopFront ([] : List T) = (none, []) := by
  refine ⟨?_, ?_, rfl, rfl⟩
  · unfold WorkStealingQueue.pushBack WorkStealingQueue.tryPopBack
    rw [List.getLast?_concat, List.dropLast_concat]
  · intro a t hq
    subst hq
    rfl

theorem c9_deque_witness :
    WorkStealingQueue.tryPopFront [1, 2] = (some 1, [2])
    ∧ WorkStealingQueue.tryPopBack (WorkStealingQueue.pushBack [1, 2] 7) = (some 7, [1, 2]) :=
  ⟨(c9_deque [1, 2] 7).2.1 1 [2] rfl, (c9_deque [1, 2] 7).1⟩


/-- C5: for every match at every observable moment (after construction, after
`start`, and after each `process_input` call), both players' positions satisfy
`0 ≤ x < 20` and `0 ≤ y < 20`. -/
theorem c5_players_in_bounds {m : Match} (h : Match.Reachable m) :
    (0 ≤ m.state.player0.x ∧ m.state.player0.x < 20
     ∧ 0 ≤ m.state.player0.y ∧ m.state.player0.y < 20)
    ∧ (0 ≤ m.state.player1.x ∧ m.state.player1.x < 20
       ∧ 0 ≤ m.state.player1.y ∧ m.state.player1.y < 20) := by
  obtain ⟨⟨h0, h1, _⟩, _, _, _⟩ := reachable_inv h
  unfold inBounds ARENA_WIDTH ARENA_HEIGHT at h0 h1
  exact ⟨h0, h1⟩

theorem c5_players_in_bounds_witness :
    Match.Reachable (Match.start (Match.init 0))
    ∧ ((0 ≤ (Match.start (Match.init 0)).state.player0.x
        ∧ (Match.start (Match.init 0)).state.player0.x < 20
        ∧ 0 ≤ (Match.start (Match.init 0)).state.player0.y
        ∧ (Match.start (Match.init 0)).state.player0.y < 20)
       ∧ (0 ≤ (Match.start (Match.init 0)).state.player1.x
          ∧ (Match.start (Match.init 0)).state.player1.x < 20
          ∧ 0 ≤ (Match.start (Match.init 0)).state.player1.y
          ∧ (Match.start (Match.init 0)).state.player1.y < 20)) :=
  ⟨Match.Reachable.started 0, c5_players_in_bounds (Match.Reachable.started 0)⟩

/-- C6: for every match at every observable moment, the snapshots sequence holds
at most 10 entries and is sorted by `tick_id` in ascending order. -/
theorem c6_snapshots_bounded_sorted {m : Match} (h : Match.Reachable m) :
    m.snapshots.length ≤ 10
    ∧ m.snapshots.Pairwise (fun a b => a.tickId ≤ b.tickId) := by
  obtain ⟨_, _, hp, hl⟩ := reachable_inv h
  exact ⟨hl, hp⟩

theorem c6_snapshots_bounded_sorted_witness :
    Match.Reachable (Match.processInput (Match.start (Match.init 1))
      { matchId := 1, playerId := 0, tickId := 0, type := .MOVE_DOWN })
    ∧ ((Match.processInput (Match.start (Match.init 1))
          { matchId := 1, playerId := 0, tickId := 0, type := .MOVE_DOWN }).snapshots.length ≤ 10
       ∧ (Match.processInput (Match.start (Match.init 1))
            { matchId := 1, playerId := 0, tickId := 0, type := .MOVE_DOWN }).snapshots.Pairwise
           (fun a b => a.tickId ≤ b.tickId)) :=
  ⟨Match.Reachable.step _ (Match.Reachable.started 1),
   c6_snapshots_bounded_sorted (Match.Reachable.step _ (Match.Reachable.started 1))⟩

/-- C7: immediately after `saveSnapshot` evicts the eldest snapshot (which is
the only trigger of history pruning), no retained history input has a `tick_id`
strictly below the eldest retained snapshot's `tick_id`. -/
theorem c7_prune_keeps_only_covered (m : Match)
    (hlen : 10 < m.snapshots.length + 1) :
    ∀ s0, (Match.saveSnapshot m).snapshots.head? = some s0 →
      ∀ i ∈ (Match.saveSnapshot m).inputHistory, s0.tickId ≤ i.tickId := by
  intro s0
  have hc : 10 < (m.snapshots
      ++ [({ tickId := m.state.currentTick, state := m.state } : Snapshot)]).length := by
    rw [List.length_append]
    simpa using hlen
  unfold Match.saveSnapshot
  dsimp only
  rw [if_pos hc]
  cases htail : (m.snapshots
      ++ [({ tickId := m.state.currentTick, state := m.state } : Snapshot)]).tail with
  | nil =>
    intro hhead i hi
    simp at hhead
  | cons sh rest =>
    intro hhead i hi
    simp only [List.head?_cons, Option.some.injEq] at hhead
    subst hhead
    exact of_decide_eq_true (List.mem_filter.1 hi).2

theorem c7_prune_keeps_only_covered_witness :
    10 < c7WitnessMatch.snapshots.length + 1
    ∧ (∀ s0, (Match.saveSnapshot c7WitnessMatch).snapshots.head? = some s0 →
        ∀ i ∈ (Match.saveSnapshot c7WitnessMatch).inputHistory, s0.tickId ≤ i.tickId) :=
  ⟨by decide, c7_prune_keeps_only_covered c7WitnessMatch (by decide)⟩

/-- C8: `receiveInput` appends the input to the per-match queue for
`input.matchId` exactly when `0 ≤ matchId < numMatches`, leaving every other
queue, every match and `processedCount` unchanged; an out-of-range `matchId`
leaves the whole server unchanged (silent drop, no error). -/
theorem c8_receive_input (g : GameServer) (i : Input)
    (hwf : g.queues.length = g.numMatches.toNat) :
    ((0 ≤ i.matchId ∧ i.matchId < g.numMatches) →
       (GameServer.receiveInput g i).queues.getD i.matchId.toNat []
           = g.queues.getD i.matchId.toNat [] ++ [i]
       ∧ (∀ j : Nat, j ≠ i.matchId.toNat →
            (GameServer.receiveInput g i).queues.getD j [] = g.queues.getD j [])
       ∧ (GameServer.receiveInput g i).matches_ = g.matches_
       ∧ (GameServer.receiveInput g i).processedCount = g.processedCount)
    ∧ (¬ (0 ≤ i.matchId ∧ i.matchId < g.numMatches) →
        GameServer.receiveInput g i = g) := by
  constructor
  · intro hin
    unfold GameServer.receiveInput
    rw [if_pos hin]
    dsimp only
    refine ⟨?_, ?_, rfl, rfl⟩
    · apply getD_set_self
      rw [hwf]
      omega
    · intro j hj
      exact getD_set_ne _ _ _ _ _ (fun he => hj he.symm)
  · intro hout
    unfold GameServer.receiveInput
    rw [if_neg hout]

theorem c8_receive_input_witness :
    c8Server.queues.length = c8Server.numMatches.toNat
    ∧ (((0 ≤ c8Input.matchId ∧ c8Input.matchId < c8Server.numMatches) →
         (GameServer.receiveInput c8Server c8Input).queues.getD c8Input.matchId.toNat []
             = c8Server.queues.getD c8Input.matchId.toNat [] ++ [c8Input]
         ∧ (∀ j : Nat, j ≠ c8Input.matchId.toNat →
              (GameServer.receiveInput c8Server c8Input).queues.getD j []
                = c8Server.queues.getD j [])
         ∧ (GameServer.receiveInput c8Server c8Input).matches_ = c8Server.matches_
         ∧ (GameServer.receiveInput c8Server c8Input).processedCount
             = c8Server.processedCount)
       ∧ (¬ (0 ≤ c8Input.matchId ∧ c8Input.matchId < c8Server.numMatches) →
           GameServer.receiveInput c8Server c8Input = c8Server)) :=
  ⟨by decide, c8_receive_input c8Server c8Input (by decide)⟩

/-- C10: `processPending` is a no-op (no `processInput` call, `processedCount`
and all matches unchanged) when the match id is out of range or the match's
queue is empty; otherwise it empties that queue, folds exactly its former
contents into that match in FIFO order, adds their number to `processedCount`,
and leaves every other queue and match unchanged. -/
theorem c10_process_pending (g : GameServer) (id : Int)
    (hwfq : g.queues.length = g.numMatches.toNat)
    (hwfm : g.matches_.length = g.numMatches.toNat) :
    (id < 0 ∨ g.numMatches ≤ id → GameServer.processPending g id = g)
    ∧ (¬ (id < 0 ∨ g.numMatches ≤ id) → g.queues.getD id.toNat [] = [] →
        GameServer.processPending g id = g)
    ∧ (¬ (id < 0 ∨ g.numMatches ≤ id) → g.queues.getD id.toNat [] ≠ [] →
        (GameServer.processPending g id).queues.getD id.toNat [] = []
        ∧ (∀ j : Nat, j ≠ id.toNat →
            (GameServer.processPending g id).queues.getD j [] = g.queues.getD j [])
        ∧ (GameServer.processPending g id).matches_.getD id.toNat (Match.init 0)
            = (g.queues.getD id.toNat []).foldl Match.processInput
                (g.matches_.getD id.toNat (Match.init 0))
        ∧ (∀ j : Nat, j ≠ id.toNat →
            (GameServer.processPending g id).matches_.getD j (Match.init 0)
              = g.matches_.getD j (Match.init 0))
        ∧ (GameServer.processPending g id).processedCount
            = g.processedCount + (g.queues.getD id.toNat []).length) := by
  refine ⟨?_, ?_, ?_⟩
  · intro hout
    unfold GameServer.processPending
    rw [if_pos hout]
  · intro hin hq
    unfold GameServer.processPending
    rw [if_neg hin]
    dsimp only
    rw [if_pos hq]
  · intro hin hne
    unfold GameServer.processPending
    rw [if_neg hin]
    dsimp only
    rw [if_neg hne]
    have hidq : id.toNat < g.queues.length := by
      rw [hwfq]
      omega
    have hidm : id.toNat < g.matches_.length := by
      rw [hwfm]
      omega
    refine ⟨getD_set_self _ _ _ _ hidq, ?_, ?_, ?_, rfl⟩
    · intro j hj
      exact getD_set_ne _ _ _ _ _ (fun he => hj he.symm)
    · rw [getD_set_self _ _ _ _ hidm]
    · intro j hj
      exact getD_set_ne _ _ _ _ _ (fun he => hj he.symm)

theorem c10_process_pending_witness :
    c10Server.queues.length = c10Server.numMatches.toNat
    ∧ c10Server.matches_.length = c10Server.numMatches.toNat
    ∧ ¬ ((0:Int) < 0 ∨ c10Server.numMatches ≤ (0:Int))
    ∧ c10Server.queues.getD (0:Int).toNat [] ≠ []
    ∧ ((GameServer.processPending c10Server 0).queues.getD (0:Int).toNat [] = []
       ∧ (∀ j : Nat, j ≠ (0:Int).toNat →
           (GameServer.processPending c10Server 0).queues.getD j []
             = c10Server.queues.getD j [])
       ∧ (GameServer.processPending c10Server 0).matches_.getD (0:Int).toNat (Match.init 0)
           = (c10Server.queues.getD (0:Int).toNat []).foldl Match.processInput
               (c10Server.matches_.getD (0:Int).toNat (Match.init 0))
       ∧ (∀ j : Nat, j ≠ (0:Int).toNat →
           (GameServer.processPending c10Server 0).matches_.getD j (Match.init 0)
             = c10Server.matches_.getD j (Match.init 0))
       ∧ (GameServer.processPending c10Server 0).processedCount
           = c10Server.processedCount + (c10Server.queues.getD (0:Int).toNat []).length) :=
  ⟨by decide, by decide, by decide, by decide,
   (c10_process_pending c10Server 0 (by decide) (by decide)).2.2 (by decide) (by decide)⟩

end Para
